import Mathlib

/-!
Shallow embedding of the clawdbot agent-orchestration core.

The embedded code comes from two modules of the repository:
* the `Bot` class (agent loops `runAnthropicAgentLoop` / `runTextAgentLoop`,
  `forceSummaryResponse`, `parseToolCall`, `cleanResponse`,
  `trimAndSaveHistory`, `handleMessage`, constructor), and
* `ToolManager.execute` and `PairingManager` from the tools module.

Modelling conventions:
* text is `List Char` (JS strings); `str` injects Lean string literals;
* JS `Map` becomes an association list with insert-or-overwrite `mapSet`,
  `mapDel` and first-match `lookupA`, matching JS Map semantics for the
  operations the code uses;
* `JSON.parse` (a JS builtin, external to the repository) is a parameter
  `jp : List Char → Option Json`; the orchestrator only inspects the
  parsed value through the fields the source reads;
* the model backend (`aiProvider.chat`) is a parameter returning the
  response; I/O side effects the loops perform best-effort (typing
  indicator, photo sending, console logging) have no data flow into the
  loop state and are elided;
* `Date.now()` and `crypto.randomBytes` are explicit parameters
  (`now : Nat` in milliseconds, the generated code as an argument).
-/

/-- Chars of a string literal, the carrier for all embedded text. -/
def str (s : String) : List Char := s.data

/-- JS-style whitespace test for the characters the regexes can meet
(the ASCII part of the `\s` class: space, tab, LF, CR, VT, FF). -/
def jsWs (c : Char) : Bool :=
  c == ' ' || c == '\t' || c == '\n' || c == '\r' ||
  c == Char.ofNat 11 || c == Char.ofNat 12

/-- Strip JS whitespace at both ends (the effect of `\s*` around the
regex capture group, and of `String.prototype.trim`). -/
def trimChars (l : List Char) : List Char :=
  ((l.dropWhile jsWs).reverse.dropWhile jsWs).reverse

/-- Index of the first occurrence of `pat` inside `l`, scanning left to
right (the position a JS regex literal-search would find). -/
def findSub : List Char → List Char → Option Nat
  | [], pat => if pat.isPrefixOf ([] : List Char) then some 0 else none
  | c :: rest, pat =>
    if pat.isPrefixOf (c :: rest) then some 0
    else (findSub rest pat).map (· + 1)

/-- Remove every non-overlapping `openT …​ closeT` span, scanning left to
right, as the global regexes in `cleanResponse` do.  `fuel` only bounds
the recursion; each removed span is nonempty, so `l.length + 1` fuel is
always enough. -/
def stripTagAux (openT closeT : List Char) : Nat → List Char → List Char
  | 0, l => l
  | fuel + 1, l =>
    match findSub l openT with
    | none => l
    | some i =>
      let pre := l.take i
      let rest := l.drop (i + openT.length)
      match findSub rest closeT with
      | none => l
      | some j => pre ++ stripTagAux openT closeT fuel (rest.drop (j + closeT.length))

/-- Remove every `openT …​ closeT` span from `l`. -/
def stripTag (openT closeT l : List Char) : List Char :=
  stripTagAux openT closeT (l.length + 1) l

/-- Bot.cleanResponse: drop tool_call / think / thinking blocks, then trim. -/
def cleanResponse (text : List Char) : List Char :=
  trimChars
    (stripTag (str ("<thinking>")) (str ("</thinking>"))
      (stripTag (str ("<think>")) (str ("</think>"))
        (stripTag (str ("<tool_call>")) (str ("</tool_call>")) text)))

/-- JSON values as produced by `JSON.parse`. -/
inductive Json where
  | null : Json
  | bool : Bool → Json
  | num : Int → Json
  | strv : List Char → Json
  | arr : List Json → Json
  | obj : List (List Char × Json) → Json

/-- JS falsiness of a parsed JSON value (`undefined` is handled at use
sites through `Option`). -/
def jsFalsy : Json → Bool
  | Json.null => true
  | Json.bool b => !b
  | Json.num n => n == 0
  | Json.strv s => s.isEmpty
  | Json.arr _ => false
  | Json.obj _ => false

/-- First-match association lookup (JS `Map.prototype.get`, and JS object
field access for parsed JSON objects). -/
def lookupA {α : Type} : List (List Char × α) → List Char → Option α
  | [], _ => none
  | (k, v) :: rest, key => if k = key then some v else lookupA rest key

/-- JS `Map.prototype.set`: overwrite in place if the key exists,
otherwise append. -/
def mapSet {α : Type} (m : List (List Char × α)) (k : List Char) (v : α) :
    List (List Char × α) :=
  if (lookupA m k).isSome then
    m.map (fun p => if p.1 = k then (k, v) else p)
  else
    m ++ [(k, v)]

/-- JS `Map.prototype.delete`. -/
def mapDel {α : Type} (m : List (List Char × α)) (k : List Char) :
    List (List Char × α) :=
  m.filter (fun p => ¬ p.1 = k)

/-- ToolResult as returned over the registry boundary. -/
structure ToolResult where
  success : Bool
  output : List Char
  error : Option (List Char) := none
  filePath : Option (List Char) := none

/-- A tool executor; `Except.error msg` models the executor throwing an
exception whose `.message` is `msg`. -/
def JExec : Type := Json → Except (List Char) ToolResult

/-- The tool registry: insertion-ordered map from tool name to executor. -/
def Registry : Type := List (List Char × JExec)

/-- ToolManager.execute: unknown name yields a tool-not-found failure
result; a throwing executor is caught and converted to a failure result
carrying the exception message.  Total by construction — nothing
propagates past this boundary. -/
def executeTool (tools : Registry) (name : List Char) (args : Json) : ToolResult :=
  match lookupA tools name with
  | none => { success := false, output := [], error := some (str ("Tool not found: ") ++ name) }
  | some exec =>
    match exec args with
    | Except.ok r => r
    | Except.error msg => { success := false, output := [], error := some msg }

/-- The `<tool_call>` open delimiter. -/
def openTagL : List Char := str ("<tool_call>")

/-- The `</tool_call>` close delimiter. -/
def closeTagL : List Char := str ("</tool_call>")

/-- First match of the regex `<tool_call>\s*([\s\S]*?)\s*<\/tool_call>`:
the earliest open delimiter that is followed by a close delimiter, the
lazily captured span between them with surrounding whitespace stripped. -/
def extractBlock (text : List Char) : Option (List Char) :=
  match findSub text openTagL with
  | none => none
  | some i =>
    let afterOpen := text.drop (i + openTagL.length)
    match findSub afterOpen closeTagL with
    | none => none
    | some j => some (trimChars (afterOpen.take j))

/-- A parsed tool-call directive. -/
structure ToolCallDirective where
  name : List Char
  args : Json

/-- Bot.parseToolCall: extract the first delimiter-wrapped block, parse
it as JSON (`jp`), and accept only an object whose `name` field is a
truthy string; `args` defaults to the empty object when absent or falsy.
Any failure — no block, unparseable JSON (including `JSON.parse`
throwing), a non-object value, a missing or falsy or non-string `name` —
yields `none`. -/
def parseToolCall (jp : List Char → Option Json) (text : List Char) :
    Option ToolCallDirective :=
  match extractBlock text with
  | none => none
  | some content =>
    match jp content with
    | some (Json.obj fields) =>
      match lookupA fields (str ("name")) with
      | some (Json.strv n) =>
        if n.isEmpty then none
        else
          some { name := n,
                 args := match lookupA fields (str ("args")) with
                         | some a => if jsFalsy a then Json.obj [] else a
                         | none => Json.obj [] }
      | _ => none
    | _ => none

/-- Message roles appearing in the loops. -/
inductive Role where
  | user : Role
  | assistant : Role
deriving DecidableEq

/-- A message of the textual-strategy conversation (plain text content;
`buildUserContent` returns the text unchanged when no images are
attached, and no claim involves image attachments). -/
structure AIMessage where
  role : Role
  content : List Char
deriving DecidableEq

/-- One call to the model backend in the textual strategy: the message
list and the system prompt in effect (the other `ChatOptions` fields are
constants of the turn and never change between rounds). -/
structure ChatCall where
  messages : List AIMessage
  sysPromptUsed : List Char
deriving DecidableEq

/-- Number of tool rounds bounding both loops (source constant). -/
def MAX_TOOL_ROUNDS : Nat := 10

/-- History ceiling in user+assistant pairs (source constant). -/
def MAX_HISTORY : Nat := 30

/-- The synthetic user turn fed back after a successful tool execution. -/
def successFeedback (name output : List Char) : List Char :=
  str ("[Tool \"") ++ name ++ str ("\" result]\n") ++ output ++
  str ("\n[End of result]\n\nContinue with the task. If you need another tool, use tool_call. Otherwise respond directly to the user (no tool_call tags).")

/-- The synthetic user turn fed back after a failed tool execution
(JS renders an `undefined` error field as the string `undefined`). -/
def failureFeedback (name : List Char) (r : ToolResult) : List Char :=
  str ("Tool \"") ++ name ++ str ("\" failed: ") ++ r.error.getD (str ("undefined")) ++
  str ("\n") ++ r.output ++ str ("\nTry a different approach or respond to the user.")

/-- The user message appended by `forceSummaryResponse`. -/
def summaryUserContent (toolName toolOutput : List Char) : List Char :=
  str ("[Tool \"") ++ toolName ++ str ("\" executed successfully. Result below]\n") ++
  toolOutput ++
  str ("\n[End of result]\n\nBased on this result, provide a clear and concise response to the user. Do NOT use any tool_call tags. Just respond directly.")

/-- The stripped-down system prompt `forceSummaryResponse` uses — no tool
instructions, so tool calling is disabled for that one call. -/
def summarySystemPrompt : List Char :=
  str ("You are a helpful assistant. Summarize the tool result and respond to the user concisely. Do NOT output any tool_call tags or XML tags. Respond in the same language as the user.")

/-- Bot.forceSummaryResponse: append a synthetic assistant turn and the
summarize instruction, issue one model call with the summary system
prompt, and return that call together with the cleaned response. -/
def forceSummaryResponse (chat : ChatCall → List Char)
    (previousMessages : List AIMessage) (assistantToolText toolName toolOutput : List Char) :
    ChatCall × List Char :=
  let summaryMessages := previousMessages ++
    [{ role := Role.assistant, content := assistantToolText },
     { role := Role.user, content := summaryUserContent toolName toolOutput }]
  let call : ChatCall := { messages := summaryMessages, sysPromptUsed := summarySystemPrompt }
  (call, cleanResponse (chat call))

/-- Observable trace of one `runTextAgentLoop` execution: every model
call issued (in order), every registry execution performed (name and
args, in order), whether the forced summary ran, and the returned text. -/
structure TextLoopResult where
  calls : List ChatCall
  toolExecs : List (List Char × Json)
  forced : Bool
  finalText : List Char

/-- The `while (rounds < MAX_TOOL_ROUNDS)` body of `runTextAgentLoop`;
`fuel` is the number of remaining rounds, so the loop enters with
`MAX_TOOL_ROUNDS`.  At fuel 0 the round cap is reached and the forced
summary runs with the source's literal arguments. -/
def textLoopAux (chat : ChatCall → List Char) (tools : Registry)
    (jp : List Char → Option Json) (sysPrompt : List Char) :
    Nat → List AIMessage → List ChatCall → List (List Char × Json) → TextLoopResult
  | 0, msgs, calls, execs =>
    let fs := forceSummaryResponse chat msgs (str ("")) (str ("multiple tools"))
      (str ("Max tool rounds reached"))
    { calls := calls ++ [fs.1], toolExecs := execs, forced := true, finalText := fs.2 }
  | fuel + 1, msgs, calls, execs =>
    let call : ChatCall := { messages := msgs, sysPromptUsed := sysPrompt }
    let text := chat call
    match parseToolCall jp text with
    | none =>
      { calls := calls ++ [call], toolExecs := execs, forced := false,
        finalText := cleanResponse text }
    | some tc =>
      let result := executeTool tools tc.name tc.args
      let feedback := if result.success then successFeedback tc.name result.output
                      else failureFeedback tc.name result
      textLoopAux chat tools jp sysPrompt fuel
        (msgs ++ [{ role := Role.assistant, content := text },
                  { role := Role.user, content := feedback }])
        (calls ++ [call]) (execs ++ [(tc.name, tc.args)])

/-- Bot.runTextAgentLoop, observed through its model-call / tool-execution
trace.  `history` is the stored conversation before this turn; the new
user turn is appended before the first model call. -/
def runTextAgentLoop (chat : ChatCall → List Char) (tools : Registry)
    (jp : List Char → Option Json) (sysPrompt : List Char)
    (history : List AIMessage) (userMessage : List Char) : TextLoopResult :=
  textLoopAux chat tools jp sysPrompt MAX_TOOL_ROUNDS
    (history ++ [{ role := Role.user, content := userMessage }]) [] []

/-- Content blocks of the Anthropic-native protocol that the loop builds
or passes through. -/
inductive ABlock where
  | textB : List Char → ABlock
  | imageB : List Char → List Char → ABlock
  | toolUseB : List Char → List Char → Json → ABlock
  | toolResultB : List Char → List Char → Bool → ABlock

/-- Content of an Anthropic-strategy message: plain text or blocks. -/
inductive AContent where
  | textC : List Char → AContent
  | blocksC : List ABlock → AContent

/-- A message of the Anthropic-strategy conversation. -/
structure AMessage where
  role : Role
  content : AContent

/-- One structured tool-invocation request from the model
(`toolUse.name!` asserts the name present; `input || {}` defaults a
falsy input to the empty object at the use site). -/
structure AToolUse where
  id : List Char
  name : List Char
  input : Json

/-- A model response of the Anthropic-native protocol, restricted to the
fields `runAnthropicAgentLoop` reads. -/
structure AResponse where
  content : List Char
  stopReason : List Char
  toolUse : Option (List AToolUse)
  rawContent : Option (List ABlock)

/-- Observable trace of one `runAnthropicAgentLoop` execution. -/
structure AnthropicLoopResult where
  calls : List (List AMessage)
  toolExecs : List (List Char × Json)
  finalText : List Char

/-- The tool_result content string the loop builds from a ToolResult
(an `undefined` error field renders as the string `undefined`). -/
def toolResultContent (r : ToolResult) : List Char :=
  if r.success then r.output
  else str ("Error: ") ++ r.error.getD (str ("undefined")) ++ str ("\n") ++ r.output

/-- The `while (rounds < MAX_TOOL_ROUNDS)` body of
`runAnthropicAgentLoop`.  At fuel 0 the loop exits with `finalText` still
holding its initialiser, the empty string — no forced summary call is
made in this strategy.  A response without tool invocations (absent or
empty `toolUse`, or a stop reason other than `tool_use`) ends the loop
with that response's text; otherwise every requested tool is executed in
array order and the results are appended as one synthetic user turn. -/
def anthropicLoopAux (chat : List AMessage → AResponse) (tools : Registry) :
    Nat → List AMessage → List (List AMessage) → List (List Char × Json) →
    AnthropicLoopResult
  | 0, _, calls, execs => { calls := calls, toolExecs := execs, finalText := str ("") }
  | fuel + 1, msgs, calls, execs =>
    let resp := chat msgs
    if (resp.toolUse.getD []).isEmpty ∨ resp.stopReason ≠ str ("tool_use") then
      { calls := calls ++ [msgs], toolExecs := execs, finalText := resp.content }
    else
      let tus := resp.toolUse.getD []
      let argsOf := fun (tu : AToolUse) => if jsFalsy tu.input then Json.obj [] else tu.input
      let results := tus.map (fun tu =>
        let r := executeTool tools tu.name (argsOf tu)
        ABlock.toolResultB tu.id (toolResultContent r) (!r.success))
      anthropicLoopAux chat tools fuel
        (msgs ++ [{ role := Role.assistant, content := AContent.blocksC (resp.rawContent.getD []) },
                  { role := Role.user, content := AContent.blocksC results }])
        (calls ++ [msgs]) (execs ++ tus.map (fun tu => (tu.name, argsOf tu)))

/-- Bot.runAnthropicAgentLoop, observed through its trace. -/
def runAnthropicAgentLoop (chat : List AMessage → AResponse) (tools : Registry)
    (history : List AMessage) (userMessage : List Char) : AnthropicLoopResult :=
  anthropicLoopAux chat tools MAX_TOOL_ROUNDS
    (history ++ [{ role := Role.user, content := AContent.textC userMessage }]) [] []

/-- Bot.trimAndSaveHistory, the trimming step: once the stored turns
exceed `MAX_HISTORY * 2`, drop the oldest turns down to that ceiling. -/
def trimHistory (history : List AIMessage) : List AIMessage :=
  if history.length > MAX_HISTORY * 2 then
    history.drop (history.length - MAX_HISTORY * 2)
  else history

/-- The per-bot conversation store `messageHistory`. -/
def HistoryStore : Type := List (List Char × List AIMessage)

/-- One completed turn for a conversation id: the loop reads the stored
history (empty when absent), pushes the user turn and the final
assistant turn, and `trimAndSaveHistory` trims and stores the result. -/
def appendTurnPair (store : HistoryStore) (id : List Char) (u a : AIMessage) :
    HistoryStore :=
  mapSet store id (trimHistory (((lookupA store id).getD []) ++ [u, a]))

/-- Pending pairing code entry (value of `pendingPairingCodes`). -/
structure PendingCode where
  platform : List Char
  userId : List Char
  expiresAt : Nat
deriving DecidableEq

/-- Durable paired-user record (value of `pairedUsers`). -/
structure PairedUser where
  platform : List Char
  userId : List Char
  pairedAt : Nat
  approved : Bool
deriving DecidableEq

/-- The two maps making up a PairingManager's state. -/
structure PairingState where
  pairedUsers : List (List Char × PairedUser)
  pendingCodes : List (List Char × PendingCode)
deriving DecidableEq

/-- PairingManager.getUserKey. -/
def getUserKey (platform userId : List Char) : List Char :=
  platform ++ str (":") ++ userId

/-- PairingManager.isApproved: pure lookup, `user?.approved || false`. -/
def isApproved (st : PairingState) (platform userId : List Char) : Bool :=
  match lookupA st.pairedUsers (getUserKey platform userId) with
  | some u => u.approved
  | none => false

/-- PairingManager.createPairingCode: record the freshly generated `code`
(six hex chars from `crypto.randomBytes`, passed here as an argument)
against (platform, userId) with a 10-minute expiry; return the code.
Only `pendingPairingCodes` is touched. -/
def createPairingCode (st : PairingState) (platform userId code : List Char)
    (now : Nat) : List Char × PairingState :=
  let entry : PendingCode :=
    { platform := platform, userId := userId, expiresAt := now + 10 * 60 * 1000 }
  (code, { st with pendingCodes := mapSet st.pendingCodes code entry })

/-- Result record of `approveByCode`. -/
structure ApproveResult where
  success : Bool
  message : List Char
deriving DecidableEq

/-- PairingManager.approveByCode: unknown code fails; a code past its
expiry is evicted and fails; otherwise the (platform, userId) the code
maps to is stored as an approved PairedUser, the code is consumed, and
the persisted set is flushed (persistence elided — the in-memory map is
the state). -/
def approveByCode (st : PairingState) (code : List Char) (now : Nat) :
    PairingState × ApproveResult :=
  match lookupA st.pendingCodes code with
  | none => (st, { success := false, message := str ("Invalid or expired pairing code") })
  | some pending =>
    if now > pending.expiresAt then
      ({ st with pendingCodes := mapDel st.pendingCodes code },
       { success := false, message := str ("Pairing code expired") })
    else
      ({ pairedUsers :=
           mapSet st.pairedUsers (getUserKey pending.platform pending.userId)
             { platform := pending.platform, userId := pending.userId,
               pairedAt := now, approved := true },
         pendingCodes := mapDel st.pendingCodes code },
       { success := true,
         message := str ("User ") ++ pending.userId ++ str (" approved successfully") })

/-- JS `a || b` on the owner id: `config.ownerId || process.env.BOT_OWNER_ID`
(an empty string is falsy). -/
def jsOrOwner (configOwner envOwner : Option (List Char)) : Option (List Char) :=
  match configOwner with
  | some s => if s.isEmpty then envOwner else some s
  | none => envOwner

/-- The constructor's pairing flag: `requirePairing` starts true and is
cleared when the resolved owner id is falsy (`if (!this.ownerId)`). -/
def requirePairingOf (ownerId : Option (List Char)) : Bool :=
  match ownerId with
  | some s => !s.isEmpty
  | none => false

/-- Bot.isOwner: `this.ownerId !== undefined && sender === this.ownerId`. -/
def isOwnerSender (ownerId : Option (List Char)) (sender : List Char) : Bool :=
  match ownerId with
  | some o => sender = o
  | none => false

/-- The branch `handleMessage` commits a message to. -/
inductive Dispatch where
  | noAdapter : Dispatch
  | pairingDenied : Dispatch
  | pairingCommand : Dispatch
  | historyCleared : Dispatch
  | statusSent : Dispatch
  | toolsListed : Dispatch
  | agentLoop : Bool → Dispatch
deriving DecidableEq

/-- Bot.handleMessage as a dispatcher: the guard sequence deciding which
branch handles a message.  `approved` stands for the durable lookup
`pairingManager.isApproved(platform, sender)`; `hasAdapter` for the
adapter lookup; the `agentLoop` payload records which strategy runs.
Inside the denied branch both sub-cases (a `pair` request and the
instructions reply) issue a pairing code and return without reaching the
model loop, so they form one dispatch outcome. -/
def handleMessageDispatch (requirePairing : Bool) (ownerId : Option (List Char))
    (isAnthropic : Bool) (approved : Bool) (hasAdapter : Bool)
    (content sender : List Char) : Dispatch :=
  if !hasAdapter then Dispatch.noAdapter
  else if requirePairing && !(isOwnerSender ownerId sender) && !approved then
    Dispatch.pairingDenied
  else if isOwnerSender ownerId sender && (str ("pairing ")).isPrefixOf content then
    Dispatch.pairingCommand
  else if content = str ("/reset") ∨ content = str ("/clear") then
    Dispatch.historyCleared
  else if content = str ("/status") then Dispatch.statusSent
  else if content = str ("/tools") then Dispatch.toolsListed
  else Dispatch.agentLoop isAnthropic

/-! ### Association-map lemmas -/

theorem lookupA_nil {α : Type} (key : List Char) :
    lookupA ([] : List (List Char × α)) key = none := rfl

theorem lookupA_cons {α : Type} (q : List Char × α) (rest : List (List Char × α))
    (key : List Char) :
    lookupA (q :: rest) key = if q.1 = key then some q.2 else lookupA rest key := rfl

theorem lookupA_map_replace {α : Type} (k : List Char) (v : α) :
    ∀ m : List (List Char × α),
      lookupA (m.map (fun p => if p.1 = k then (k, v) else p)) k =
        if (lookupA m k).isSome then some v else none := by
  intro m
  induction m with
  | nil => simp [lookupA_nil]
  | cons p rest ih =>
    simp only [List.map_cons]
    by_cases h : p.1 = k
    · rw [if_pos h, lookupA_cons, lookupA_cons]
      simp [h]
    · rw [if_neg h, lookupA_cons, lookupA_cons, if_neg h, if_neg h, ih]

theorem lookupA_append {α : Type} (k : List Char) (m' : List (List Char × α)) :
    ∀ m : List (List Char × α), lookupA m k = none →
      lookupA (m ++ m') k = lookupA m' k := by
  intro m
  induction m with
  | nil => intro _; rfl
  | cons p rest ih =>
    intro h
    rw [lookupA_cons] at h
    by_cases hp : p.1 = k
    · rw [if_pos hp] at h; exact absurd h (by simp)
    · rw [if_neg hp] at h
      rw [List.cons_append, lookupA_cons, if_neg hp]
      exact ih h

theorem lookupA_mapSet_self {α : Type} (m : List (List Char × α)) (k : List Char) (v : α) :
    lookupA (mapSet m k v) k = some v := by
  unfold mapSet
  by_cases h : (lookupA m k).isSome
  · rw [if_pos h, lookupA_map_replace, if_pos h]
  · rw [if_neg h]
    have hn : lookupA m k = none := by
      cases hm : lookupA m k
      · rfl
      · rw [hm] at h; simp at h
    rw [lookupA_append k _ m hn, lookupA_cons]
    simp

theorem lookupA_mapDel_self {α : Type} (k : List Char) :
    ∀ m : List (List Char × α), lookupA (mapDel m k) k = none := by
  intro m
  induction m with
  | nil => rfl
  | cons p rest ih =>
    unfold mapDel at ih ⊢
    rw [List.filter_cons]
    by_cases h : p.1 = k
    · rw [if_neg (by simp [h])]
      exact ih
    · rw [if_pos (by simp [h]), lookupA_cons, if_neg h]
      exact ih

/-! ### C5 — registry error containment -/

/-- C5: `ToolManager.execute` never lets an error escape as an exception:
an unknown tool name yields a failed result carrying the tool-not-found
message, and a throwing executor is caught and converted to a failed
result carrying the exception message.  `executeTool` is a total
function into `ToolResult`, so no exception can propagate past it. -/
theorem execute_error_containment :
    (∀ (tools : Registry) (name : List Char) (args : Json),
      lookupA tools name = none →
      executeTool tools name args =
        ({ success := false, output := [],
           error := some (str ("Tool not found: ") ++ name) } : ToolResult)) ∧
    (∀ (tools : Registry) (name : List Char) (args : Json) (exec : JExec)
      (msg : List Char),
      lookupA tools name = some exec → exec args = Except.error msg →
      executeTool tools name args =
        ({ success := false, output := [], error := some msg } : ToolResult)) := by
  constructor
  · intro tools name args h
    simp [executeTool, h]
  · intro tools name args exec msg h hthrow
    simp [executeTool, h, hthrow]

/-- Witness for C5 at concrete inputs: the empty registry on name
`shell`, and a single-tool registry whose executor throws `kaput`. -/
theorem execute_error_containment_witness :
    executeTool [] (str ("shell")) Json.null =
      ({ success := false, output := [],
         error := some (str ("Tool not found: ") ++ str ("shell")) } : ToolResult) ∧
    executeTool [(str ("boom"), fun _ => Except.error (str ("kaput")))]
        (str ("boom")) Json.null =
      ({ success := false, output := [], error := some (str ("kaput")) } : ToolResult) :=
  ⟨execute_error_containment.1 [] (str ("shell")) Json.null rfl,
   execute_error_containment.2 [(str ("boom"), fun _ => Except.error (str ("kaput")))]
     (str ("boom")) Json.null (fun _ => Except.error (str ("kaput"))) (str ("kaput"))
     rfl rfl⟩

/-! ### C9 — issuing a code leaves durable pairing state unchanged -/

/-- C9: `createPairingCode` only touches the ephemeral pending-code map:
the durable `pairedUsers` map is identical afterwards (no PairingRecord
created, modified or deleted), so `isApproved` answers exactly as
before for every (platform, userId). -/
theorem createPairingCode_frame (st : PairingState) (platform userId code : List Char)
    (now : Nat) :
    ((createPairingCode st platform userId code now).2).pairedUsers = st.pairedUsers ∧
    ∀ p u : List Char,
      isApproved (createPairingCode st platform userId code now).2 p u =
        isApproved st p u := by
  refine ⟨rfl, fun p u => rfl⟩

/-! ### C6 — a pairing code is single-use -/

/-- C6: approving a valid, unexpired code once flips the (platform,
userId) it maps to from unapproved to approved and consumes the code; a
second `approveByCode` with the same, now-deleted code fails with the
invalid-code error and leaves the state untouched. -/
theorem pairing_code_single_use (st : PairingState) (code : List Char)
    (now now2 : Nat) (pc : PendingCode)
    (hcode : lookupA st.pendingCodes code = some pc)
    (hfresh : ¬ now > pc.expiresAt)
    (hbefore : isApproved st pc.platform pc.userId = false) :
    (approveByCode st code now).2.success = true ∧
    isApproved (approveByCode st code now).1 pc.platform pc.userId = true ∧
    lookupA (approveByCode st code now).1.pendingCodes code = none ∧
    approveByCode (approveByCode st code now).1 code now2 =
      ((approveByCode st code now).1,
       { success := false, message := str ("Invalid or expired pairing code") }) := by
  have happ : approveByCode st code now =
      ({ pairedUsers :=
           mapSet st.pairedUsers (getUserKey pc.platform pc.userId)
             { platform := pc.platform, userId := pc.userId,
               pairedAt := now, approved := true },
         pendingCodes := mapDel st.pendingCodes code },
       { success := true,
         message := str ("User ") ++ pc.userId ++ str (" approved successfully") }) := by
    unfold approveByCode
    rw [hcode]
    simp [hfresh]
  refine ⟨by rw [happ], ?_, ?_, ?_⟩
  · rw [happ]
    unfold isApproved
    rw [lookupA_mapSet_self]
  · rw [happ]
    exact lookupA_mapDel_self code st.pendingCodes
  · rw [happ]
    unfold approveByCode
    simp only [lookupA_mapDel_self]

/-- Witness for C6: a one-entry pending map, approval at time 1000
(before the expiry 600000), re-approval attempted at time 2000. -/
theorem pairing_code_single_use_witness :
    (lookupA (PairingState.mk [] [(str ("A1B2C3"),
        { platform := str ("telegram"), userId := str ("U1"),
          expiresAt := 600000 })]).pendingCodes (str ("A1B2C3")) =
      some ({ platform := str ("telegram"), userId := str ("U1"),
              expiresAt := 600000 } : PendingCode)) ∧
    (approveByCode (PairingState.mk [] [(str ("A1B2C3"),
        { platform := str ("telegram"), userId := str ("U1"),
          expiresAt := 600000 })]) (str ("A1B2C3")) 1000).2.success = true ∧
    isApproved (approveByCode (PairingState.mk [] [(str ("A1B2C3"),
        { platform := str ("telegram"), userId := str ("U1"),
          expiresAt := 600000 })]) (str ("A1B2C3")) 1000).1
      (str ("telegram")) (str ("U1")) = true ∧
    lookupA (approveByCode (PairingState.mk [] [(str ("A1B2C3"),
        { platform := str ("telegram"), userId := str ("U1"),
          expiresAt := 600000 })]) (str ("A1B2C3")) 1000).1.pendingCodes
      (str ("A1B2C3")) = none ∧
    approveByCode (approveByCode (PairingState.mk [] [(str ("A1B2C3"),
        { platform := str ("telegram"), userId := str ("U1"),
          expiresAt := 600000 })]) (str ("A1B2C3")) 1000).1 (str ("A1B2C3")) 2000 =
      ((approveByCode (PairingState.mk [] [(str ("A1B2C3"),
          { platform := str ("telegram"), userId := str ("U1"),
            expiresAt := 600000 })]) (str ("A1B2C3")) 1000).1,
       { success := false, message := str ("Invalid or expired pairing code") }) := by
  refine ⟨by decide, ?_⟩
  have h := pairing_code_single_use
    (PairingState.mk [] [(str ("A1B2C3"),
      { platform := str ("telegram"), userId := str ("U1"), expiresAt := 600000 })])
    (str ("A1B2C3")) 1000 2000
    ({ platform := str ("telegram"), userId := str ("U1"), expiresAt := 600000 })
    (by decide) (by decide) (by decide)
  exact h

/-! ### C7 — pairing codes carry a 10-minute TTL and expire for good -/

/-- C7: `createPairingCode` stamps the code with expiry `now + 10min`
(600000 ms); an approval attempt after that instant fails with the
expired-code message, evicts the code, and leaves the durable paired-user
map untouched; every later attempt with the same code also fails and
changes nothing, so an expired code never yields an approved record. -/
theorem pairing_code_ttl (st : PairingState) (platform userId code : List Char)
    (t now now2 : Nat)
    (hexp : now > t + 10 * 60 * 1000) :
    lookupA ((createPairingCode st platform userId code t).2).pendingCodes code =
      some ({ platform := platform, userId := userId,
              expiresAt := t + 10 * 60 * 1000 } : PendingCode) ∧
    (approveByCode (createPairingCode st platform userId code t).2 code now).2 =
      ({ success := false, message := str ("Pairing code expired") } : ApproveResult) ∧
    (approveByCode (createPairingCode st platform userId code t).2 code now).1.pairedUsers =
      ((createPairingCode st platform userId code t).2).pairedUsers ∧
    lookupA (approveByCode (createPairingCode st platform userId code t).2 code
      now).1.pendingCodes code = none ∧
    (approveByCode (approveByCode (createPairingCode st platform userId code t).2 code
        now).1 code now2).2.success = false ∧
    (approveByCode (approveByCode (createPairingCode st platform userId code t).2 code
        now).1 code now2).1 =
      (approveByCode (createPairingCode st platform userId code t).2 code now).1 := by
  have hlook : lookupA ((createPairingCode st platform userId code t).2).pendingCodes code =
      some ({ platform := platform, userId := userId,
              expiresAt := t + 10 * 60 * 1000 } : PendingCode) := by
    unfold createPairingCode
    exact lookupA_mapSet_self st.pendingCodes code _
  have happ : approveByCode (createPairingCode st platform userId code t).2 code now =
      ({ pairedUsers := ((createPairingCode st platform userId code t).2).pairedUsers,
         pendingCodes :=
           mapDel ((createPairingCode st platform userId code t).2).pendingCodes code },
       { success := false, message := str ("Pairing code expired") }) := by
    unfold approveByCode
    rw [hlook]
    simp [hexp]
  have hgone : lookupA (approveByCode (createPairingCode st platform userId code t).2 code
      now).1.pendingCodes code = none := by
    rw [happ]
    exact lookupA_mapDel_self code _
  refine ⟨hlook, by rw [happ], by rw [happ], hgone, ?_, ?_⟩
  · rw [happ]
    unfold approveByCode
    simp only [lookupA_mapDel_self]
  · rw [happ]
    unfold approveByCode
    simp only [lookupA_mapDel_self]

/-- Witness for C7: a code issued at time 0 expires at 600000; approval
attempts at times 600001 and 700000 both fail and never approve. -/
theorem pairing_code_ttl_witness :
    600001 > 0 + 10 * 60 * 1000 ∧
    (approveByCode (createPairingCode (PairingState.mk [] []) (str ("telegram"))
        (str ("U1")) (str ("C0DE01")) 0).2 (str ("C0DE01")) 600001).2 =
      ({ success := false, message := str ("Pairing code expired") } : ApproveResult) ∧
    (approveByCode (createPairingCode (PairingState.mk [] []) (str ("telegram"))
        (str ("U1")) (str ("C0DE01")) 0).2 (str ("C0DE01")) 600001).1.pairedUsers =
      ((createPairingCode (PairingState.mk [] []) (str ("telegram"))
        (str ("U1")) (str ("C0DE01")) 0).2).pairedUsers ∧
    (approveByCode (approveByCode (createPairingCode (PairingState.mk [] [])
        (str ("telegram")) (str ("U1")) (str ("C0DE01")) 0).2 (str ("C0DE01"))
        600001).1 (str ("C0DE01")) 700000).2.success = false := by
  have h := pairing_code_ttl (PairingState.mk [] []) (str ("telegram")) (str ("U1"))
    (str ("C0DE01")) 0 600001 700000 (by decide)
  exact ⟨by decide, h.2.1, h.2.2.1, h.2.2.2.2.1⟩

/-! ### C10 — no owner id disables the pairing gate entirely -/

/-- C10: when the Bot is constructed with no owner id in its config and
no `BOT_OWNER_ID` in the environment, the constructor clears
`requirePairing`; `handleMessage` then never takes the admission-denied
branch for any message or approval state, and any content that is not
one of the built-in commands is dispatched straight to the model loop —
independently of whether the sender has any PairingRecord or approval. -/
theorem no_owner_disables_pairing (isAnthropic approved : Bool)
    (content sender : List Char)
    (h1 : content ≠ str ("/reset")) (h2 : content ≠ str ("/clear"))
    (h3 : content ≠ str ("/status")) (h4 : content ≠ str ("/tools")) :
    requirePairingOf (jsOrOwner none none) = false ∧
    (∀ (c s : List Char) (a b : Bool),
      handleMessageDispatch (requirePairingOf (jsOrOwner none none)) (jsOrOwner none none)
        b a true c s ≠ Dispatch.pairingDenied) ∧
    handleMessageDispatch (requirePairingOf (jsOrOwner none none)) (jsOrOwner none none)
      isAnthropic approved true content sender = Dispatch.agentLoop isAnthropic := by
  refine ⟨rfl, ?_, ?_⟩
  · intro c s a b
    simp only [handleMessageDispatch, jsOrOwner, requirePairingOf, isOwnerSender]
    split_ifs <;> simp_all
  · simp only [handleMessageDispatch, jsOrOwner, requirePairingOf, isOwnerSender]
    simp [h1, h2, h3, h4]

/-- Witness for C10: an unapproved stranger sends plain text and is
dispatched to the model loop. -/
theorem no_owner_disables_pairing_witness :
    str ("hello") ≠ str ("/reset") ∧
    handleMessageDispatch (requirePairingOf (jsOrOwner none none)) (jsOrOwner none none)
      true false true (str ("hello")) (str ("stranger")) = Dispatch.agentLoop true :=
  ⟨by decide,
   (no_owner_disables_pairing true false (str ("hello")) (str ("stranger"))
     (by decide) (by decide) (by decide) (by decide)).2.2⟩

/-! ### C4 — bounded history with oldest-pair eviction -/

/-- Flatten a list of user+assistant turn-pairs in append order. -/
def flatPairs : List (AIMessage × AIMessage) → List AIMessage
  | [] => []
  | p :: rest => p.1 :: p.2 :: flatPairs rest

/-- The suffix of at most `MAX_HISTORY * 2` most recent turns. -/
def suffHist (l : List AIMessage) : List AIMessage :=
  l.drop (l.length - MAX_HISTORY * 2)

theorem trim_append_pair (xs : List AIMessage) (u a : AIMessage) :
    trimHistory (suffHist xs ++ [u, a]) = suffHist (xs ++ [u, a]) := by
  have hmax : MAX_HISTORY * 2 = 60 := rfl
  unfold trimHistory suffHist
  by_cases hm : xs.length + 2 ≤ MAX_HISTORY * 2
  · have hua : ([u, a] : List AIMessage).length = 2 := rfl
    have h0 : xs.length - MAX_HISTORY * 2 = 0 := by omega
    have h1 : (xs ++ [u, a]).length - MAX_HISTORY * 2 = 0 := by
      simp only [List.length_append, hua]
      omega
    rw [h0, List.drop_zero, h1, List.drop_zero,
      if_neg (by simp only [List.length_append, hua]; omega)]
  · have hua : ([u, a] : List AIMessage).length = 2 := rfl
    have hL : (xs.drop (xs.length - MAX_HISTORY * 2) ++ [u, a]).length =
        (xs.length - (xs.length - MAX_HISTORY * 2)) + 2 := by
      simp [List.length_append, List.length_drop]
    rw [if_pos (by rw [hL]; omega)]
    rw [hL]
    have hle1 : (xs.length - (xs.length - MAX_HISTORY * 2)) + 2 - MAX_HISTORY * 2 ≤
        (xs.drop (xs.length - MAX_HISTORY * 2)).length := by
      rw [List.length_drop]
      omega
    rw [List.drop_append_of_le_length hle1, List.drop_drop]
    have h2 : (xs ++ [u, a]).length - MAX_HISTORY * 2 = xs.length + 2 - MAX_HISTORY * 2 := by
      simp only [List.length_append, hua]
    have hle2 : xs.length + 2 - MAX_HISTORY * 2 ≤ xs.length := by omega
    rw [h2, List.drop_append_of_le_length hle2]
    have hidx : (xs.length - MAX_HISTORY * 2) +
        ((xs.length - (xs.length - MAX_HISTORY * 2)) + 2 - MAX_HISTORY * 2) =
        xs.length + 2 - MAX_HISTORY * 2 := by omega
    rw [hidx]

theorem foldl_trim_pairs (pairs : List (AIMessage × AIMessage)) :
    ∀ xs : List AIMessage,
      pairs.foldl (fun h p => trimHistory (h ++ [p.1, p.2])) (suffHist xs) =
        suffHist (xs ++ flatPairs pairs) := by
  induction pairs with
  | nil => intro xs; simp [flatPairs]
  | cons p rest ih =>
    intro xs
    simp only [List.foldl_cons, flatPairs]
    rw [trim_append_pair, ih (xs ++ [p.1, p.2])]
    congr 1
    simp

theorem lookupA_foldl_append_pairs (id : List Char) (pairs : List (AIMessage × AIMessage)) :
    ∀ (store : HistoryStore) (h : List AIMessage),
      lookupA store id = some h →
      lookupA (pairs.foldl (fun s p => appendTurnPair s id p.1 p.2) store) id =
        some (pairs.foldl (fun hh p => trimHistory (hh ++ [p.1, p.2])) h) := by
  induction pairs with
  | nil => intro store h hlook; simpa using hlook
  | cons p rest ih =>
    intro store h hlook
    simp only [List.foldl_cons]
    apply ih
    unfold appendTurnPair
    rw [hlook]
    exact lookupA_mapSet_self store id _

/-- C4: for any conversation id starting with no stored history, after N
appended user+assistant turn-pairs with `N * 2 > 2 * MAX_HISTORY`, the
stored history is exactly the most recent turns of the full appended
sequence in original order (the `MAX_HISTORY * 2`-suffix — whole oldest
pairs evicted first), and its length never exceeds `MAX_HISTORY * 2`. -/
theorem history_trim_invariant (id : List Char) (store : HistoryStore)
    (pairs : List (AIMessage × AIMessage))
    (hstart : lookupA store id = none)
    (hN : pairs.length * 2 > MAX_HISTORY * 2) :
    lookupA (pairs.foldl (fun s p => appendTurnPair s id p.1 p.2) store) id =
      some ((flatPairs pairs).drop ((flatPairs pairs).length - MAX_HISTORY * 2)) ∧
    ((flatPairs pairs).drop ((flatPairs pairs).length - MAX_HISTORY * 2)).length ≤
      MAX_HISTORY * 2 := by
  constructor
  · cases pairs with
    | nil => simp at hN
    | cons p rest =>
      simp only [List.foldl_cons]
      have hfirst :
          lookupA (appendTurnPair store id p.1 p.2) id =
            some (trimHistory ([] ++ [p.1, p.2])) := by
        unfold appendTurnPair
        rw [hstart]
        exact lookupA_mapSet_self store id _
      rw [lookupA_foldl_append_pairs id rest _ _ hfirst]
      have hstep : trimHistory ([] ++ [p.1, p.2]) = suffHist ([] ++ [p.1, p.2]) := rfl
      rw [hstep, foldl_trim_pairs rest ([] ++ [p.1, p.2])]
      simp only [List.nil_append]
      rfl
  · rw [List.length_drop]
    omega

/-- A concrete run of 31 appended turn-pairs for the C4 witness. -/
def samplePairs : List (AIMessage × AIMessage) :=
  List.replicate 31
    ({ role := Role.user, content := str ("u") },
     { role := Role.assistant, content := str ("a") })

/-- Witness for C4: 31 pairs (62 turns) appended to an initially absent
conversation leave exactly the 60-turn suffix stored. -/
theorem history_trim_invariant_witness :
    lookupA ([] : HistoryStore) (str ("chat1")) = none ∧
    samplePairs.length * 2 > MAX_HISTORY * 2 ∧
    lookupA (samplePairs.foldl
        (fun s p => appendTurnPair s (str ("chat1")) p.1 p.2) ([] : HistoryStore))
        (str ("chat1")) =
      some ((flatPairs samplePairs).drop
        ((flatPairs samplePairs).length - MAX_HISTORY * 2)) :=
  ⟨rfl, by decide,
   (history_trim_invariant (str ("chat1")) [] samplePairs rfl (by decide)).1⟩

/-! ### C3 — the textual loop makes at most MAX_TOOL_ROUNDS + 1 model calls -/

theorem textLoopAux_calls_le (chat : ChatCall → List Char) (tools : Registry)
    (jp : List Char → Option Json) (sysPrompt : List Char) :
    ∀ (fuel : Nat) (msgs : List AIMessage) (calls : List ChatCall)
      (execs : List (List Char × Json)),
      (textLoopAux chat tools jp sysPrompt fuel msgs calls execs).calls.length ≤
        calls.length + fuel + 1 := by
  intro fuel
  induction fuel with
  | zero =>
    intro msgs calls execs
    simp [textLoopAux]
  | succ n ih =>
    intro msgs calls execs
    unfold textLoopAux
    dsimp only
    split
    · simp only [List.length_append, List.length_cons, List.length_nil]
      omega
    · exact le_trans (ih _ _ _)
        (by simp only [List.length_append, List.length_cons, List.length_nil]; omega)

/-- C3: for every model backend — including adversarial ones that emit a
(possibly varying) tool-call directive on every response — every tool
registry, every JSON parser and every starting history, the textual
strategy makes at most `MAX_TOOL_ROUNDS + 1` model calls in total
(at most `MAX_TOOL_ROUNDS` loop calls plus the single forced-summary
call); the loop is a total function, so it always terminates. -/
theorem textual_loop_call_bound (chat : ChatCall → List Char) (tools : Registry)
    (jp : List Char → Option Json) (sysPrompt : List Char)
    (history : List AIMessage) (userMessage : List Char) :
    (runTextAgentLoop chat tools jp sysPrompt history userMessage).calls.length ≤
      MAX_TOOL_ROUNDS + 1 := by
  have h := textLoopAux_calls_le chat tools jp sysPrompt MAX_TOOL_ROUNDS
    (history ++ [{ role := Role.user, content := userMessage }]) [] []
  simpa [runTextAgentLoop] using h

/-! ### C1 — the textual loop does not detect repeated directives -/

theorem textLoopAux_const_directive (chat : ChatCall → List Char) (tools : Registry)
    (jp : List Char → Option Json) (sys : List Char) (d : ToolCallDirective)
    (hd : ∀ c, parseToolCall jp (chat c) = some d) :
    ∀ (fuel : Nat) (msgs : List AIMessage) (calls : List ChatCall)
      (execs : List (List Char × Json)),
      (textLoopAux chat tools jp sys fuel msgs calls execs).toolExecs =
        execs ++ List.replicate fuel (d.name, d.args) ∧
      (textLoopAux chat tools jp sys fuel msgs calls execs).forced = true ∧
      (textLoopAux chat tools jp sys fuel msgs calls execs).calls.length =
        calls.length + fuel + 1 := by
  intro fuel
  induction fuel with
  | zero =>
    intro msgs calls execs
    refine ⟨by simp [textLoopAux], by simp [textLoopAux], by simp [textLoopAux]⟩
  | succ n ih =>
    intro msgs calls execs
    unfold textLoopAux
    dsimp only
    rw [hd]
    dsimp only
    refine ⟨?_, (ih _ _ _).2.1, ?_⟩
    · rw [(ih _ _ _).1]
      simp [List.replicate_succ]
    · rw [(ih _ _ _).2.2]
      simp only [List.length_append, List.length_cons, List.length_nil]
      omega

/-- The JSON text of the fixed directive used by the concrete adversary
(`JSON.parse` maps it to an object with name `shell` and empty args). -/
def body0 : List Char := str ("\x7b\"name\":\"shell\",\"args\":\x7b\x7d\x7d")

/-- The fixed delimiter-wrapped directive response. -/
def dir0 : List Char := openTagL ++ body0 ++ closeTagL

/-- A concrete JSON parser agreeing with `JSON.parse` on `body0`. -/
def jp0 : List Char → Option Json := fun s =>
  if s = body0 then
    some (Json.obj [(str ("name"), Json.strv (str ("shell"))),
                    (str ("args"), Json.obj [])])
  else none

/-- A model backend that answers every call with the identical directive. -/
def chatConst : ChatCall → List Char := fun _ => dir0

/-- A registry with a stub `shell` tool. -/
def toolsT : Registry :=
  [(str ("shell"), fun _ => Except.ok { success := true, output := str ("ok") })]

/-- The parsed form of `dir0`. -/
def d0 : ToolCallDirective := { name := str ("shell"), args := Json.obj [] }

/-- Counterexample to C1: a textual-strategy model that emits the same
tool-call directive (identical name and args) on every response.  The
orchestrator executes the tool on every one of the `MAX_TOOL_ROUNDS`
rounds — in particular it runs the exact repeat a second time instead of
detecting it — and the forced summary only happens after the round cap,
as the 11th model call, never early. -/
theorem textual_repeat_executed_counterexample :
    (runTextAgentLoop chatConst toolsT jp0 (str ("SYS")) [] (str ("hi"))).toolExecs =
      List.replicate MAX_TOOL_ROUNDS (str ("shell"), Json.obj []) ∧
    (runTextAgentLoop chatConst toolsT jp0 (str ("SYS")) [] (str ("hi"))).calls.length =
      MAX_TOOL_ROUNDS + 1 := by
  have h := textLoopAux_const_directive chatConst toolsT jp0 (str ("SYS")) d0
    (fun _ => rfl) MAX_TOOL_ROUNDS
    ([] ++ [{ role := Role.user, content := str ("hi") }]) [] []
  exact ⟨by simpa [runTextAgentLoop, d0] using h.1,
         by simpa [runTextAgentLoop] using h.2.2⟩

/-- C1 amended: the textual strategy performs no repeat detection at all:
whenever every model response carries one and the same directive, the
orchestrator executes the tool again on every round — the exact repeat
included — and the summary is forced only when the round cap is reached,
as the one extra model call. -/
theorem textual_repeat_not_detected (chat : ChatCall → List Char) (tools : Registry)
    (jp : List Char → Option Json) (sys : List Char)
    (history : List AIMessage) (userMessage : List Char) (d : ToolCallDirective)
    (hd : ∀ c, parseToolCall jp (chat c) = some d) :
    (runTextAgentLoop chat tools jp sys history userMessage).toolExecs =
      List.replicate MAX_TOOL_ROUNDS (d.name, d.args) ∧
    (runTextAgentLoop chat tools jp sys history userMessage).forced = true ∧
    (runTextAgentLoop chat tools jp sys history userMessage).calls.length =
      MAX_TOOL_ROUNDS + 1 := by
  have h := textLoopAux_const_directive chat tools jp sys d hd MAX_TOOL_ROUNDS
    (history ++ [{ role := Role.user, content := userMessage }]) [] []
  exact ⟨by simpa [runTextAgentLoop] using h.1,
         by simpa [runTextAgentLoop] using h.2.1,
         by simpa [runTextAgentLoop] using h.2.2⟩

/-- Witness for the amended C1 at the concrete adversary. -/
theorem textual_repeat_not_detected_witness :
    parseToolCall jp0 (chatConst { messages := [], sysPromptUsed := [] }) = some d0 ∧
    (runTextAgentLoop chatConst toolsT jp0 (str ("SYS")) [] (str ("hi"))).forced = true ∧
    (runTextAgentLoop chatConst toolsT jp0 (str ("SYS")) [] (str ("hi"))).calls.length =
      MAX_TOOL_ROUNDS + 1 :=
  ⟨rfl,
   (textual_repeat_not_detected chatConst toolsT jp0 (str ("SYS")) [] (str ("hi")) d0
     (fun _ => rfl)).2.1,
   (textual_repeat_not_detected chatConst toolsT jp0 (str ("SYS")) [] (str ("hi")) d0
     (fun _ => rfl)).2.2⟩

/-! ### C2 — forced summary at the round cap, per strategy -/

theorem textLoopAux_always_directive (chat : ChatCall → List Char) (tools : Registry)
    (jp : List Char → Option Json) (sys : List Char)
    (hd : ∀ c, (parseToolCall jp (chat c)).isSome) :
    ∀ (fuel : Nat) (msgs : List AIMessage) (calls : List ChatCall)
      (execs : List (List Char × Json)),
      (textLoopAux chat tools jp sys fuel msgs calls execs).forced = true ∧
      (textLoopAux chat tools jp sys fuel msgs calls execs).calls.length =
        calls.length + fuel + 1 ∧
      ∃ c : ChatCall,
        (textLoopAux chat tools jp sys fuel msgs calls execs).calls.getLast? = some c ∧
        c.sysPromptUsed = summarySystemPrompt ∧
        (∃ pre, c.messages = pre ++
          [{ role := Role.assistant, content := str ("") },
           { role := Role.user,
             content := summaryUserContent (str ("multiple tools"))
               (str ("Max tool rounds reached")) }]) ∧
        (textLoopAux chat tools jp sys fuel msgs calls execs).finalText =
          cleanResponse (chat c) := by
  intro fuel
  induction fuel with
  | zero =>
    intro msgs calls execs
    exact ⟨rfl, by simp [textLoopAux, forceSummaryResponse], _,
      List.getLast?_concat calls, rfl, ⟨msgs, rfl⟩, rfl⟩
  | succ n ih =>
    intro msgs calls execs
    unfold textLoopAux
    dsimp only
    obtain ⟨d, hdj⟩ := Option.isSome_iff_exists.mp (hd { messages := msgs, sysPromptUsed := sys })
    rw [hdj]
    dsimp only
    refine ⟨(ih _ _ _).1, ?_, (ih _ _ _).2.2⟩
    rw [(ih _ _ _).2.1]
    simp only [List.length_append, List.length_cons, List.length_nil]
    omega

theorem anthropicLoopAux_always_tool (chat : List AMessage → AResponse) (tools : Registry)
    (hd : ∀ msgs : List AMessage,
      ((chat msgs).toolUse.getD []).isEmpty = false ∧
      (chat msgs).stopReason = str ("tool_use")) :
    ∀ (fuel : Nat) (msgs : List AMessage) (calls : List (List AMessage))
      (execs : List (List Char × Json)),
      (anthropicLoopAux chat tools fuel msgs calls execs).calls.length =
        calls.length + fuel ∧
      (anthropicLoopAux chat tools fuel msgs calls execs).finalText = str ("") := by
  intro fuel
  induction fuel with
  | zero =>
    intro msgs calls execs
    exact ⟨by simp [anthropicLoopAux], rfl⟩
  | succ n ih =>
    intro msgs calls execs
    unfold anthropicLoopAux
    dsimp only
    rw [if_neg (by
      obtain ⟨h1, h2⟩ := hd msgs
      simp [h1, h2])]
    refine ⟨?_, (ih _ _ _).2⟩
    rw [(ih _ _ _).1]
    simp only [List.length_append, List.length_cons, List.length_nil]
    omega

/-- A structured-strategy backend that requests a tool on every response. -/
def chatAlwaysTool : List AMessage → AResponse := fun _ =>
  { content := str ("ignored"), stopReason := str ("tool_use"),
    toolUse := some [{ id := str ("id1"), name := str ("shell"), input := Json.obj [] }],
    rawContent := some [] }

/-- Counterexample to C2: under the structured (Anthropic-native)
strategy, a backend that requests a tool on every response drives the
loop to the round cap, after which the orchestrator makes NO extra
summarization model call — the total stays at `MAX_TOOL_ROUNDS` calls,
one short of the `MAX_TOOL_ROUNDS + 1` the claim requires — and the
turn's output is the loop's untouched initialiser, the empty string,
not the result of any model call. -/
theorem anthropic_no_forced_summary_counterexample :
    (runAnthropicAgentLoop chatAlwaysTool toolsT [] (str ("hi"))).calls.length =
      MAX_TOOL_ROUNDS ∧
    (runAnthropicAgentLoop chatAlwaysTool toolsT [] (str ("hi"))).calls.length ≠
      MAX_TOOL_ROUNDS + 1 ∧
    (runAnthropicAgentLoop chatAlwaysTool toolsT [] (str ("hi"))).finalText = str ("") := by
  have h := anthropicLoopAux_always_tool chatAlwaysTool toolsT
    (fun _ => ⟨rfl, rfl⟩) MAX_TOOL_ROUNDS
    ([] ++ [{ role := Role.user, content := AContent.textC (str ("hi")) }]) [] []
  refine ⟨by simpa [runAnthropicAgentLoop] using h.1, ?_,
    by simpa [runAnthropicAgentLoop] using h.2⟩
  have h1 : (runAnthropicAgentLoop chatAlwaysTool toolsT [] (str ("hi"))).calls.length =
      MAX_TOOL_ROUNDS := by simpa [runAnthropicAgentLoop] using h.1
  rw [h1]
  omega

/-- C2 amended: the forced-summary round-cap behaviour holds for the
textual strategy only.  Textual: when every loop response carries a
directive, the loop stops after `MAX_TOOL_ROUNDS` calls and issues
exactly one extra call whose system prompt is the tool-free summary
prompt and whose appended user turn is the summarize instruction, and
that call's cleaned result is the turn's output unconditionally.
Structured: at the cap the loop simply exits after `MAX_TOOL_ROUNDS`
calls with the empty string as output and no extra call. -/
theorem round_cap_summary_textual_only :
    (∀ (chat : ChatCall → List Char) (tools : Registry)
      (jp : List Char → Option Json) (sys : List Char)
      (history : List AIMessage) (userMessage : List Char),
      (∀ c, (parseToolCall jp (chat c)).isSome) →
      (runTextAgentLoop chat tools jp sys history userMessage).forced = true ∧
      (runTextAgentLoop chat tools jp sys history userMessage).calls.length =
        MAX_TOOL_ROUNDS + 1 ∧
      ∃ c : ChatCall,
        (runTextAgentLoop chat tools jp sys history userMessage).calls.getLast? = some c ∧
        c.sysPromptUsed = summarySystemPrompt ∧
        (∃ pre, c.messages = pre ++
          [{ role := Role.assistant, content := str ("") },
           { role := Role.user,
             content := summaryUserContent (str ("multiple tools"))
               (str ("Max tool rounds reached")) }]) ∧
        (runTextAgentLoop chat tools jp sys history userMessage).finalText =
          cleanResponse (chat c)) ∧
    (∀ (chat : List AMessage → AResponse) (tools : Registry)
      (history : List AMessage) (userMessage : List Char),
      (∀ msgs : List AMessage,
        ((chat msgs).toolUse.getD []).isEmpty = false ∧
        (chat msgs).stopReason = str ("tool_use")) →
      (runAnthropicAgentLoop chat tools history userMessage).calls.length =
        MAX_TOOL_ROUNDS ∧
      (runAnthropicAgentLoop chat tools history userMessage).finalText = str ("")) := by
  constructor
  · intro chat tools jp sys history userMessage hd
    have h := textLoopAux_always_directive chat tools jp sys hd MAX_TOOL_ROUNDS
      (history ++ [{ role := Role.user, content := userMessage }]) [] []
    exact ⟨by simpa [runTextAgentLoop] using h.1,
           by simpa [runTextAgentLoop] using h.2.1,
           by simpa [runTextAgentLoop] using h.2.2⟩
  · intro chat tools history userMessage hd
    have h := anthropicLoopAux_always_tool chat tools hd MAX_TOOL_ROUNDS
      (history ++ [{ role := Role.user, content := AContent.textC userMessage }]) [] []
    exact ⟨by simpa [runAnthropicAgentLoop] using h.1,
           by simpa [runAnthropicAgentLoop] using h.2⟩

/-- Witness for the amended C2 at concrete adversaries for each strategy. -/
theorem round_cap_summary_textual_only_witness :
    (parseToolCall jp0 (chatConst { messages := [], sysPromptUsed := [] })).isSome = true ∧
    (runTextAgentLoop chatConst toolsT jp0 (str ("SYS")) [] (str ("hi"))).forced = true ∧
    ((chatAlwaysTool []).toolUse.getD []).isEmpty = false ∧
    (runAnthropicAgentLoop chatAlwaysTool toolsT [] (str ("hi"))).calls.length =
      MAX_TOOL_ROUNDS :=
  ⟨rfl,
   (round_cap_summary_textual_only.1 chatConst toolsT jp0 (str ("SYS")) [] (str ("hi"))
     (fun _ => rfl)).1,
   rfl,
   (round_cap_summary_textual_only.2 chatAlwaysTool toolsT [] (str ("hi"))
     (fun _ => ⟨rfl, rfl⟩)).1⟩

/-! ### C8 — one directive per response, malformed treated as absent -/

theorem findSub_of_isPrefixOf (l pat : List Char) (h : pat.isPrefixOf l = true) :
    findSub l pat = some 0 := by
  cases l with
  | nil => simp [findSub, h]
  | cons c rest => simp [findSub, h]

theorem findSub_self_append (pat rest : List Char) :
    findSub (pat ++ rest) pat = some 0 := by
  apply findSub_of_isPrefixOf
  rw [List.isPrefixOf_iff_prefix]
  exact List.prefix_append pat rest

theorem findSub_prepend_no_lt (pat : List Char) (hpat : pat.head? = some '<') :
    ∀ (pre : List Char), (∀ ch ∈ pre, ch ≠ '<') →
      ∀ (rest : List Char) (k : Nat), findSub rest pat = some k →
        findSub (pre ++ rest) pat = some (pre.length + k) := by
  intro pre
  induction pre with
  | nil =>
    intro _ rest k h
    rw [List.nil_append, List.length_nil, Nat.zero_add]
    exact h
  | cons c pre' ih =>
    intro hpre rest k h
    have hc : c ≠ '<' := hpre c (by simp)
    have hnp : pat.isPrefixOf (c :: (pre' ++ rest)) = false := by
      cases pat with
      | nil => simp at hpat
      | cons p ps =>
        have hp : p = '<' := by simpa using hpat
        subst hp
        simp only [List.isPrefixOf]
        rw [beq_false_of_ne (fun hlt => hc hlt.symm)]
        rfl
    rw [List.cons_append]
    unfold findSub
    rw [hnp]
    simp only [Bool.false_eq_true, if_false]
    rw [ih (fun ch hm => hpre ch (by simp [hm])) rest k h]
    have hlen : (c :: pre').length + k = pre'.length + k + 1 := by
      simp only [List.length_cons]
      omega
    rw [hlen]
    rfl

theorem extract_first_of_two (b1 b2 mid : List Char)
    (hb1 : ∀ ch ∈ b1, ch ≠ '<') :
    extractBlock (openTagL ++ b1 ++ closeTagL ++ mid ++ openTagL ++ b2 ++ closeTagL) =
      some (trimChars b1) := by
  have hassoc : openTagL ++ b1 ++ closeTagL ++ mid ++ openTagL ++ b2 ++ closeTagL =
      openTagL ++ (b1 ++ (closeTagL ++ (mid ++ (openTagL ++ (b2 ++ closeTagL))))) := by
    simp [List.append_assoc]
  rw [hassoc]
  unfold extractBlock
  rw [findSub_self_append]
  dsimp only
  have hdrop : (openTagL ++ (b1 ++ (closeTagL ++ (mid ++ (openTagL ++
      (b2 ++ closeTagL)))))).drop (0 + openTagL.length) =
      b1 ++ (closeTagL ++ (mid ++ (openTagL ++ (b2 ++ closeTagL)))) := by
    rw [Nat.zero_add]
    exact List.drop_left _ _
  rw [hdrop]
  have hclose : findSub (b1 ++ (closeTagL ++ (mid ++ (openTagL ++ (b2 ++ closeTagL)))))
      closeTagL = some (b1.length + 0) :=
    findSub_prepend_no_lt closeTagL rfl b1 hb1 _ 0
      (findSub_self_append closeTagL _)
  rw [hclose]
  dsimp only
  have htake : (b1 ++ (closeTagL ++ (mid ++ (openTagL ++ (b2 ++ closeTagL))))).take
      (b1.length + 0) = b1 := by
    rw [Nat.add_zero]
    exact List.take_left _ _
  rw [htake]

/-- C8: the textual orchestrator considers at most one directive per
response, and a malformed directive is handled exactly like an absent
one.  Conjuncts: (1) whenever `parseToolCall` yields nothing — which
covers both the absent and every malformed case — the loop round
executes no tool, records no execution, and returns the cleaned response
as the final text, one identical outcome for both cases; (2) no
delimiter block parses to nothing; (3) a block `JSON.parse` rejects
parses to nothing; (4) a parsed object without a `name` field parses to
nothing; (5) when a response carries two delimiter-wrapped blocks, only
the first block's content is extracted. -/
theorem single_directive_fail_open :
    (∀ (jp : List Char → Option Json) (text : List Char) (chat : ChatCall → List Char)
      (tools : Registry) (sys : List Char) (fuel : Nat) (msgs : List AIMessage)
      (calls : List ChatCall) (execs : List (List Char × Json)),
      parseToolCall jp text = none →
      chat { messages := msgs, sysPromptUsed := sys } = text →
      textLoopAux chat tools jp sys (fuel + 1) msgs calls execs =
        { calls := calls ++ [{ messages := msgs, sysPromptUsed := sys }],
          toolExecs := execs, forced := false, finalText := cleanResponse text }) ∧
    (∀ (jp : List Char → Option Json) (text : List Char),
      extractBlock text = none → parseToolCall jp text = none) ∧
    (∀ (jp : List Char → Option Json) (text content : List Char),
      extractBlock text = some content → jp content = none →
      parseToolCall jp text = none) ∧
    (∀ (jp : List Char → Option Json) (text content : List Char)
      (fields : List (List Char × Json)),
      extractBlock text = some content → jp content = some (Json.obj fields) →
      lookupA fields (str ("name")) = none → parseToolCall jp text = none) ∧
    (∀ b1 b2 mid : List Char, (∀ ch ∈ b1, ch ≠ '<') →
      extractBlock (openTagL ++ b1 ++ closeTagL ++ mid ++ openTagL ++ b2 ++ closeTagL) =
        some (trimChars b1)) := by
  refine ⟨?_, ?_, ?_, ?_, extract_first_of_two⟩
  · intro jp text chat tools sys fuel msgs calls execs hnone hchat
    unfold textLoopAux
    dsimp only
    rw [hchat, hnone]
  · intro jp text h
    unfold parseToolCall
    rw [h]
  · intro jp text content h1 h2
    unfold parseToolCall
    rw [h1]
    dsimp only
    rw [h2]
  · intro jp text content fields h1 h2 h3
    unfold parseToolCall
    rw [h1]
    dsimp only
    rw [h2]
    dsimp only
    rw [h3]

/-- Witness for C8 at concrete inputs: a response whose single block is
not JSON (`JSON.parse` throws on it) yields the same final-text outcome
as a response with no block; an empty JSON object lacks `name`; a
two-block response extracts only the first block. -/
theorem single_directive_fail_open_witness :
    parseToolCall (fun _ => none) (str ("<tool_call>not json</tool_call> see above")) =
      none ∧
    textLoopAux (fun _ => str ("<tool_call>not json</tool_call> see above")) toolsT
        (fun _ => none) (str ("SYS")) 1 [] [] [] =
      { calls := [{ messages := [], sysPromptUsed := str ("SYS") }],
        toolExecs := [], forced := false,
        finalText := cleanResponse (str ("<tool_call>not json</tool_call> see above")) } ∧
    parseToolCall (fun _ => none) (str ("no block at all")) = none ∧
    parseToolCall (fun _ => some (Json.obj []))
      (str ("<tool_call>\x7b\x7d</tool_call>")) = none ∧
    extractBlock (openTagL ++ str (" x ") ++ closeTagL ++ str (" mid ") ++ openTagL ++
        str ("y") ++ closeTagL) = some (trimChars (str (" x "))) :=
  ⟨single_directive_fail_open.2.2.1 (fun _ => none) _ (str ("not json")) rfl rfl,
   single_directive_fail_open.1 (fun _ => none)
     (str ("<tool_call>not json</tool_call> see above"))
     (fun _ => str ("<tool_call>not json</tool_call> see above")) toolsT
     (str ("SYS")) 0 [] [] []
     (single_directive_fail_open.2.2.1 (fun _ => none) _ (str ("not json")) rfl rfl) rfl,
   single_directive_fail_open.2.1 (fun _ => none) (str ("no block at all")) rfl,
   single_directive_fail_open.2.2.2.1 (fun _ => some (Json.obj []))
     (str ("<tool_call>\x7b\x7d</tool_call>")) (str ("\x7b\x7d")) [] rfl rfl rfl,
   single_directive_fail_open.2.2.2.2 (str (" x ")) (str ("y")) (str (" mid "))
     (by decide)⟩
